import Mathlib

/-!
Verification of the streaming salary-estimation relay
(`supabase/functions/estimate-salary-stream/index.ts`,
`supabase/functions/estimate-salary/index.ts`) and of the client-side
delimited payload parser described in the specification.

Strings are modelled as `List Char` (one element per UTF-16-ish code point;
all inputs of interest are ASCII).  `TextEncoder`/`TextDecoder` are
identities in this model: transport chunks are carried as decoded text.
-/

set_option maxHeartbeats 1000000

/-- JSON whitespace as accepted by `JSON.parse`. -/
def isJsonWs (c : Char) : Bool :=
  c = ' ' || c = '\n' || c = '\r' || c = '\t'

/-- Skip leading JSON whitespace. -/
def skipWs : List Char → List Char
  | [] => []
  | c :: cs => if isJsonWs c then skipWs cs else c :: cs

/-- JavaScript `String.prototype.trim` (whitespace from both ends). -/
def trimChars (s : List Char) : List Char :=
  ((s.dropWhile Char.isWhitespace).reverse.dropWhile Char.isWhitespace).reverse

/-- JavaScript `String.prototype.split('\n')`: split at every occurrence of
the separator character. -/
def splitOnChar (sep : Char) : List Char → List (List Char)
  | [] => [[]]
  | c :: cs =>
    if c = sep then [] :: splitOnChar sep cs
    else
      match splitOnChar sep cs with
      | [] => [[c]]
      | seg :: segs => (c :: seg) :: segs

/-- JavaScript `String.prototype.includes(pat)`: `pat` occurs as a
contiguous substring. -/
def strIncludes (s pat : List Char) : Bool :=
  match s with
  | [] => pat.isEmpty
  | _ :: cs => pat.isPrefixOf s || strIncludes cs pat

/-- `JSON.parse` result values.  Numbers keep their source literal (their
exact float value is never relevant here) together with a flag telling
whether the mantissa is all zeroes (this determines JS truthiness). -/
inductive Json where
  | null : Json
  | bool (b : Bool) : Json
  | num (mantissaZero : Bool) (raw : List Char) : Json
  | str (s : List Char) : Json
  | arr (elems : List Json) : Json
  | obj (fields : List (List Char × Json)) : Json
deriving Repr

/-- Hexadecimal digit value, for `\uXXXX` escapes. -/
def hexVal (c : Char) : Option Nat :=
  if '0' ≤ c ∧ c ≤ '9' then some (c.toNat - '0'.toNat)
  else if 'a' ≤ c ∧ c ≤ 'f' then some (c.toNat - 'a'.toNat + 10)
  else if 'A' ≤ c ∧ c ≤ 'F' then some (c.toNat - 'A'.toNat + 10)
  else none

/-- Single-character JSON string escapes. -/
def unescape (e : Char) : Option Char :=
  if e = '"' then some '"'
  else if e = '\\' then some '\\'
  else if e = '/' then some '/'
  else if e = 'b' then some '\x08'
  else if e = 'f' then some '\x0c'
  else if e = 'n' then some '\n'
  else if e = 'r' then some '\r'
  else if e = 't' then some '\t'
  else none

/-- Parse the body of a JSON string literal (the opening quote already
consumed); returns the decoded characters and the remaining input.
Raw control characters are rejected, as in `JSON.parse`. -/
def parseStringBody : List Char → Option (List Char × List Char)
  | [] => none
  | c :: rest =>
    if c = '"' then some ([], rest)
    else if c = '\\' then
      match rest with
      | [] => none
      | e :: rest2 =>
        if e = 'u' then
          match rest2 with
          | h1 :: h2 :: h3 :: h4 :: rest4 =>
            match hexVal h1, hexVal h2, hexVal h3, hexVal h4 with
            | some a, some b, some c2, some d =>
              (parseStringBody rest4).map
                (fun p => (Char.ofNat (((a * 16 + b) * 16 + c2) * 16 + d) :: p.1, p.2))
            | _, _, _, _ => none
          | _ => none
        else
          match unescape e with
          | some u => (parseStringBody rest2).map (fun p => (u :: p.1, p.2))
          | none => none
    else if c.toNat < 0x20 then none
    else (parseStringBody rest).map (fun p => (c :: p.1, p.2))

/-- Decimal digit test. -/
def isDigitChar (c : Char) : Bool := '0' ≤ c && c ≤ '9'

/-- Parse a JSON number literal (strict grammar: optional minus,
`0`-or-nonzero-led integer part, optional fraction, optional exponent).
Records whether all mantissa digits are zero (the JS falsy values 0 and
negative zero). -/
def parseNumber (cs : List Char) : Option (Json × List Char) :=
  let (negChars, cs1) :=
    match cs with
    | '-' :: rest => (['-'], rest)
    | _ => ([], cs)
  let (intDs, cs2) := cs1.span isDigitChar
  if intDs.isEmpty then none
  else if intDs.length > 1 && intDs.head? = some '0' then none
  else
    let (fracDs, cs3) :=
      match cs2 with
      | '.' :: r => (let p := r.span isDigitChar; (p.1, p.2))
      | _ => ([], cs2)
    let fracOk :=
      match cs2 with
      | '.' :: _ => !fracDs.isEmpty
      | _ => true
    if !fracOk then none
    else
      let fracChars := match cs2 with | '.' :: _ => '.' :: fracDs | _ => []
      let (expChars, cs4) :=
        match cs3 with
        | e :: r =>
          if e = 'e' || e = 'E' then
            let (sgn, r2) :=
              match r with
              | s :: r3 => if s = '+' || s = '-' then ([s], r3) else ([], r)
              | [] => ([], r)
            let p := r2.span isDigitChar
            if p.1.isEmpty then ([], cs3) else (e :: (sgn ++ p.1), p.2)
          else ([], cs3)
        | [] => ([], cs3)
      let expOk :=
        match cs3 with
        | e :: _ => !(e = 'e' || e = 'E') || !expChars.isEmpty
        | [] => true
      if !expOk then none
      else
        let mantZero := (intDs ++ fracDs).all (· = '0')
        some (Json.num mantZero (negChars ++ intDs ++ fracChars ++ expChars), cs4)

mutual

/-- JSON value parser (fuel-indexed recursive descent; fuel bounds the
nesting/iteration depth and each unit of fuel corresponds to at least one
consumed input character, so `length + 2` fuel always suffices). -/
def parseValue : Nat → List Char → Option (Json × List Char)
  | 0, _ => none
  | fuel + 1, cs =>
    match skipWs cs with
    | [] => none
    | c :: rest =>
      if c = '{' then parseMembers fuel rest
      else if c = '[' then parseElems fuel rest
      else if c = '"' then (parseStringBody rest).map (fun p => (Json.str p.1, p.2))
      else if c = 't' then
        if rest.take 3 = ['r', 'u', 'e'] then some (Json.bool true, rest.drop 3) else none
      else if c = 'f' then
        if rest.take 4 = ['a', 'l', 's', 'e'] then some (Json.bool false, rest.drop 4) else none
      else if c = 'n' then
        if rest.take 3 = ['u', 'l', 'l'] then some (Json.null, rest.drop 3) else none
      else parseNumber (c :: rest)

/-- Array elements, right after the opening `[`. -/
def parseElems : Nat → List Char → Option (Json × List Char)
  | 0, _ => none
  | fuel + 1, cs =>
    match skipWs cs with
    | [] => none
    | c :: rest =>
      if c = ']' then some (Json.arr [], rest)
      else
        match parseValue fuel (c :: rest) with
        | none => none
        | some (v, cs2) =>
          match parseElemsRest fuel cs2 with
          | none => none
          | some (vs, cs3) => some (Json.arr (v :: vs), cs3)

/-- Remaining array elements (`,` separated, closed by `]`). -/
def parseElemsRest : Nat → List Char → Option (List Json × List Char)
  | 0, _ => none
  | fuel + 1, cs =>
    match skipWs cs with
    | [] => none
    | c :: rest =>
      if c = ']' then some ([], rest)
      else if c = ',' then
        match parseValue fuel rest with
        | none => none
        | some (v, cs2) =>
          match parseElemsRest fuel cs2 with
          | none => none
          | some (vs, cs3) => some (v :: vs, cs3)
      else none

/-- Object members, right after the opening `{`. -/
def parseMembers : Nat → List Char → Option (Json × List Char)
  | 0, _ => none
  | fuel + 1, cs =>
    match skipWs cs with
    | [] => none
    | c :: rest =>
      if c = '}' then some (Json.obj [], rest)
      else if c = '"' then
        match parseStringBody rest with
        | none => none
        | some (k, cs2) =>
          match skipWs cs2 with
          | [] => none
          | c2 :: cs3 =>
            if c2 = ':' then
              match parseValue fuel cs3 with
              | none => none
              | some (v, cs4) =>
                match parseMembersRest fuel cs4 with
                | none => none
                | some (kvs, cs5) => some (Json.obj ((k, v) :: kvs), cs5)
            else none
      else none

/-- Remaining object members (`,` separated, closed by `}`). -/
def parseMembersRest : Nat → List Char → Option (List (List Char × Json) × List Char)
  | 0, _ => none
  | fuel + 1, cs =>
    match skipWs cs with
    | [] => none
    | c :: rest =>
      if c = '}' then some ([], rest)
      else if c = ',' then
        match skipWs rest with
        | [] => none
        | c2 :: cs2 =>
          if c2 = '"' then
            match parseStringBody cs2 with
            | none => none
            | some (k, cs3) =>
              match skipWs cs3 with
              | [] => none
              | c3 :: cs4 =>
                if c3 = ':' then
                  match parseValue fuel cs4 with
                  | none => none
                  | some (v, cs5) =>
                    match parseMembersRest fuel cs5 with
                    | none => none
                    | some (kvs, cs6) => some ((k, v) :: kvs, cs6)
                else none
          else none
      else none

end

/-- `JSON.parse`: parse one value and require only whitespace to remain. -/
def jsonParse (s : List Char) : Option Json :=
  match parseValue (s.length + 2) s with
  | some (v, rest) => if skipWs rest = [] then some v else none
  | none => none

example : jsonParse "\x7b\"choices\":[\x7b\"delta\":\x7b\"content\":\"100\"\x7d\x7d]\x7d".data =
    some (Json.obj [("choices".data,
      Json.arr [Json.obj [("delta".data,
        Json.obj [("content".data, Json.str "100".data)])]])]) := by rfl

example : jsonParse "[DONE]".data = none := by rfl
example : jsonParse "null".data = some Json.null := by rfl
example : jsonParse " \x7b\"a\": [1, -2.5e3, true, \"x\\n\"]\x7d ".data =
    some (Json.obj [("a".data, Json.arr
      [Json.num false "1".data, Json.num false "-2.5e3".data,
       Json.bool true, Json.str "x\n".data])]) := by rfl

/-- The value of a JavaScript property access: either `undefined` or a JSON
value. -/
inductive JsVal where
  | undef : JsVal
  | val (j : Json) : JsVal

/-- JavaScript truthiness of a JSON value. -/
def truthyJ : Json → Bool
  | Json.null => false
  | Json.bool b => b
  | Json.num z _ => !z
  | Json.str s => !s.isEmpty
  | Json.arr _ => true
  | Json.obj _ => true

/-- JavaScript truthiness of a possibly-undefined value. -/
def truthyV : JsVal → Bool
  | JsVal.undef => false
  | JsVal.val j => truthyJ j

/-- Property lookup in a parsed object.  `JSON.parse` keeps the last of
duplicate keys, so the last binding wins. -/
def lookupLast (kvs : List (List Char × Json)) (k : List Char) : Option Json :=
  match kvs with
  | [] => none
  | (k', v) :: rest =>
    match lookupLast rest k with
    | some r => some r
    | none => if k' = k then some v else none

/-- JavaScript property access `v.k`: a TypeError (modelled as `.error ()`)
on `null`/`undefined`, the bound value or `undefined` on objects, and
`undefined` on other (autoboxed) values, which carry none of the
properties accessed here. -/
def getField : JsVal → List Char → Except Unit JsVal
  | JsVal.undef, _ => .error ()
  | JsVal.val Json.null, _ => .error ()
  | JsVal.val (Json.obj kvs), k =>
    .ok (match lookupLast kvs k with
         | some v => JsVal.val v
         | none => JsVal.undef)
  | JsVal.val _, _ => .ok JsVal.undef

/-- JavaScript indexing `v[i]`: TypeError on `null`/`undefined`, element or
`undefined` on arrays, character or `undefined` on strings, numeric-string
key lookup on objects, `undefined` otherwise. -/
def getIndex : JsVal → Nat → Except Unit JsVal
  | JsVal.undef, _ => .error ()
  | JsVal.val Json.null, _ => .error ()
  | JsVal.val (Json.arr es), i =>
    .ok (match es.get? i with
         | some v => JsVal.val v
         | none => JsVal.undef)
  | JsVal.val (Json.str s), i =>
    .ok (match s.get? i with
         | some c => JsVal.val (Json.str [c])
         | none => JsVal.undef)
  | JsVal.val (Json.obj kvs), i =>
    .ok (match lookupLast kvs (Nat.toDigits 10 i) with
         | some v => JsVal.val v
         | none => JsVal.undef)
  | JsVal.val _, _ => .ok JsVal.undef

/-- JavaScript string conversion `String(v)` as used by the template
literal `data: ${content}`.  Array elements are joined with commas, with
`null` rendered empty, as `Array.prototype.toString` does; number values
are rendered by their source literal (an idealization: JS re-formats the
float value, which never matters here since no theorem stringifies a
number). -/
def Json.isNull : Json → Bool
  | Json.null => true
  | _ => false

mutual

def jsToString : Json → List Char
  | Json.str s => s
  | Json.null => "null".data
  | Json.bool b => if b then "true".data else "false".data
  | Json.num _ raw => raw
  | Json.obj _ => "[object Object]".data
  | Json.arr es => jsArrToString es

/-- Comma-joined rendering of array elements (`Array.prototype.toString`),
with `null` elements rendered empty. -/
def jsArrToString : List Json → List Char
  | [] => []
  | [j] => if j.isNull then [] else jsToString j
  | j :: rest => (if j.isNull then [] else jsToString j) ++ ',' :: jsArrToString rest

end

/-- The content-delta guard of the streaming function's transform
(`estimate-salary-stream/index.ts`, lines 81-88):
`parsedData.choices && parsedData.choices[0] && parsedData.choices[0].delta
&& parsedData.choices[0].delta.content`, returning the content to enqueue
when the whole conjunction is truthy.  `.error ()` models a TypeError
escaping to the surrounding catch. -/
def streamDelta (j : Json) : Except Unit (Option Json) := do
  let choices ← getField (JsVal.val j) "choices".data
  if truthyV choices = false then return none
  let c0 ← getIndex choices 0
  if truthyV c0 = false then return none
  let d ← getField c0 "delta".data
  if truthyV d = false then return none
  let content ← getField d "content".data
  match content with
  | JsVal.val cj => if truthyJ cj then return (some cj) else return none
  | JsVal.undef => return none

/-- The content guard of the non-streaming function's client-facing
transform (`estimate-salary/index.ts`, line 115):
`parsedData.choices && parsedData.choices[0].delta &&
parsedData.choices[0].delta.content` — note the missing
`parsedData.choices[0] &&` conjunct. -/
def nsDelta (j : Json) : Except Unit (Option Json) := do
  let choices ← getField (JsVal.val j) "choices".data
  if truthyV choices = false then return none
  let c0 ← getIndex choices 0
  let d ← getField c0 "delta".data
  if truthyV d = false then return none
  let content ← getField d "content".data
  match content with
  | JsVal.val cj => if truthyJ cj then return (some cj) else return none
  | JsVal.undef => return none

/-- Unguarded evaluation of the path `choices[0].delta.content` (used to
state what "the frame has a truthy value at the content path" means,
independently of the short-circuit guards in the code). -/
def rawDeltaPath (j : Json) : Except Unit JsVal := do
  let choices ← getField (JsVal.val j) "choices".data
  let c0 ← getIndex choices 0
  let d ← getField c0 "delta".data
  getField d "content".data

/-- The SSE frame marker `"data: "`. -/
def dataMarker : List Char := "data: ".data

/-- The termination sentinel line. -/
def doneSentinel : List Char := "data: [DONE]".data

/-- Body of the per-line loop of the streaming function's transform
(`estimate-salary-stream/index.ts`, lines 73-94): skip non-`data: ` lines,
strip the 6-character marker, `JSON.parse` the remainder and enqueue the
content when the delta guard holds; a parse failure or TypeError is caught
and logged, enqueuing nothing. -/
def processLine (line : List Char) : List (List Char) :=
  if !(dataMarker.isPrefixOf line) then []
  else
    let jsonStr := line.drop 6
    match jsonParse jsonStr with
    | none => []
    | some parsed =>
      match streamDelta parsed with
      | .error _ => []
      | .ok none => []
      | .ok (some content) => [dataMarker ++ jsToString content ++ ['\n', '\n']]

/-- Body of the per-line loop of the non-streaming function's transform
(`estimate-salary/index.ts`, lines 105-122): identical except that the
catch re-enqueues the raw remainder `data: ${line.slice(6)}\n\n`. -/
def processLineNS (line : List Char) : List (List Char) :=
  if !(dataMarker.isPrefixOf line) then []
  else
    let jsonStr := line.drop 6
    match jsonParse jsonStr with
    | none => [dataMarker ++ jsonStr ++ ['\n', '\n']]
    | some parsed =>
      match nsDelta parsed with
      | .error _ => [dataMarker ++ jsonStr ++ ['\n', '\n']]
      | .ok none => []
      | .ok (some content) => [dataMarker ++ jsToString content ++ ['\n', '\n']]

/-- The streaming function's `TransformStream` callback
(`estimate-salary-stream/index.ts`, lines 62-96) applied to one decoded
transport chunk: drop the whole chunk if it contains the `[DONE]`
sentinel, otherwise split into lines, keep non-blank ones, and process
each line in order.  Returns the list of enqueued events. -/
def transformChunk (text : List Char) : List (List Char) :=
  if strIncludes text doneSentinel then []
  else
    (((splitOnChar '\n' text).filter (fun l => !(trimChars l).isEmpty)).map processLine).flatten

/-- The non-streaming function's `TransformStream` callback
(`estimate-salary/index.ts`, lines 93-124), same skeleton with
`processLineNS`. -/
def transformChunkNS (text : List Char) : List (List Char) :=
  if strIncludes text doneSentinel then []
  else
    (((splitOnChar '\n' text).filter (fun l => !(trimChars l).isEmpty)).map processLineNS).flatten

/-- The events produced by piping a whole sequence of upstream transport
chunks through the streaming transform (`pipeThrough(transformStream)`,
line 99). -/
def transformAll (chunks : List (List Char)) : List (List Char) :=
  (chunks.map transformChunk).flatten

example :
    transformAll
      ["data: \x7b\"choices\":[\x7b\"delta\":\x7b\"content\":\"100\"\x7d\x7d]\x7d".data,
       "data: \x7b\"choices\":[\x7b\"delta\":\x7b\"content\":\"k-120k\"\x7d\x7d]\x7d".data,
       "data: \x7b\"choices\":[\x7b\"delta\":\x7b\"content\":\" ;; high ;; strong demand\"\x7d\x7d]\x7d".data,
       "data: [DONE]".data] =
      ["data: 100\n\n".data, "data: k-120k\n\n".data,
       "data:  ;; high ;; strong demand\n\n".data] := by rfl

/-- One hexadecimal digit character. -/
def hexDigitChar (n : Nat) : Char :=
  if n < 10 then Char.ofNat ('0'.toNat + n) else Char.ofNat ('a'.toNat + (n - 10))

/-- `JSON.stringify` escaping of one string character. -/
def jsonEscapeChar (c : Char) : List Char :=
  if c = '"' then ['\\', '"']
  else if c = '\\' then ['\\', '\\']
  else if c = '\x08' then ['\\', 'b']
  else if c = '\x0c' then ['\\', 'f']
  else if c = '\n' then ['\\', 'n']
  else if c = '\r' then ['\\', 'r']
  else if c = '\t' then ['\\', 't']
  else if c.toNat < 0x20 then
    ['\\', 'u', '0', '0', hexDigitChar (c.toNat / 16), hexDigitChar (c.toNat % 16)]
  else [c]

/-- `JSON.stringify({ error: msg })` for a string message. -/
def stringifyError (msg : List Char) : List Char :=
  "\x7b\"error\":\"".data ++ (msg.map jsonEscapeChar).flatten ++ "\"\x7d".data

/-- The in-band terminal error event enqueued by the catch branch
(`estimate-salary-stream/index.ts`, line 105):
`data: ${JSON.stringify({ error: error.message })}\n\n`. -/
def errorEvent (msg : List Char) : List Char :=
  dataMarker ++ stringifyError msg ++ ['\n', '\n']

/-- The upstream `fetch` response as far as the relay observes it. -/
structure UpstreamResponse where
  /-- `response.ok`: the HTTP status was in the 2xx range. -/
  ok : Bool
  /-- `response.status`. -/
  status : Nat
  /-- `await response.text()`, read on the non-ok path. -/
  errorText : List Char
  /-- The decoded transport chunks of `response.body` on the ok path. -/
  bodyChunks : List (List Char)
  /-- Whether the upstream transport fails (errors the body stream) after
  the listed chunks, i.e. mid-stream. -/
  bodyErrored : Bool

/-- Outcome of the upstream call: the `fetch` promise either rejects
before any response is obtained (network failure, abort during the
initial call) or resolves to a response. -/
inductive FetchOutcome where
  | fail (msg : List Char) : FetchOutcome
  | resp (r : UpstreamResponse) : FetchOutcome

/-- How the stream handed to the client terminates. -/
inductive StreamEnd where
  | closed : StreamEnd
  | errored : StreamEnd
deriving DecidableEq, Repr

/-- The client-visible stream: the events enqueued, and how it ends.  A
`pipeThrough` of an erroring upstream body propagates the error: the
transformed events seen so far are followed by a stream error, with
nothing appended. -/
structure RelayStream where
  events : List (List Char)
  ending : StreamEnd

/-- Result of `estimateSalaryStream`: the async function either rejects
(`throw` before the try block) or resolves to a stream. -/
inductive FnResult where
  | thrown (msg : List Char) : FnResult
  | stream (s : RelayStream) : FnResult

/-- `estimateSalaryStream` (`estimate-salary-stream/index.ts`, lines
9-111).  The missing-credential check precedes the try block, so that
error rejects the promise; every failure of the `fetch` itself or the
non-ok status check is caught and converted into a single-event error
stream; on the ok path the body is piped through the transform.  The
first component records whether the upstream `fetch` was performed. -/
def estimateSalaryStream (keyPresent : Bool) (fetch : FetchOutcome) :
    Bool × FnResult :=
  if !keyPresent then
    (false, FnResult.thrown "OPENAI_API_KEY environment variable not set".data)
  else
    (true,
     match fetch with
     | FetchOutcome.fail msg => FnResult.stream ⟨[errorEvent msg], StreamEnd.closed⟩
     | FetchOutcome.resp r =>
       if !r.ok then
         FnResult.stream
           ⟨[errorEvent ("OpenAI API error: ".data ++ (Nat.toDigits 10 r.status)
               ++ " - ".data ++ r.errorText)], StreamEnd.closed⟩
       else
         FnResult.stream
           ⟨transformAll r.bodyChunks,
            if r.bodyErrored then StreamEnd.errored else StreamEnd.closed⟩)

/-- An HTTP response body: either a JSON document or a streamed body. -/
inductive RespBody where
  | json (s : List Char) : RespBody
  | stream (s : RelayStream) : RespBody

/-- The relay's HTTP response (status, `Content-Type` header, body). -/
structure HttpResponse where
  status : Nat
  contentType : List Char
  body : RespBody

/-- The `serve` handler of `estimate-salary-stream/index.ts` (lines
113-150) for a POST whose JSON body was read successfully: 400 when
`jobData` is falsy; otherwise the stream returned by
`estimateSalaryStream` is wrapped in a 200 `text/event-stream` response,
and only a rejection of `estimateSalaryStream` (the missing credential)
reaches the catch that produces a 500.  The first component records
whether the upstream `fetch` was performed. -/
def serveHandler (keyPresent jobDataPresent : Bool) (fetch : FetchOutcome) :
    Bool × HttpResponse :=
  if !jobDataPresent then
    (false, ⟨400, "application/json".data,
      RespBody.json (stringifyError "Job data is required".data)⟩)
  else
    match estimateSalaryStream keyPresent fetch with
    | (att, FnResult.thrown msg) =>
      (att, ⟨500, "application/json".data, RespBody.json (stringifyError msg)⟩)
    | (att, FnResult.stream s) =>
      (att, ⟨200, "text/event-stream".data, RespBody.stream s⟩)

set_option linter.unusedVariables false in
/-- The abort wiring of the `serve` handler (lines 129-133): it creates a
fresh `new AbortController()`, passes `abortController.signal` to the
upstream `fetch`, never invokes `abortController.abort()`, and never
observes the inbound request's own signal — so the aborted state of the
signal handed to the upstream call is `false` regardless of whether the
client has disconnected. -/
def upstreamSignalAborted (clientDisconnected : Bool) : Bool := false

/-- Modelled from the spec: the Stream Consumer's Delimited Payload Parser
(spec §4.4) is client-side code not present under `src/` (the checked-in
client component uses the non-streaming endpoint), so it is modelled from
the specification's words: "Splits on the literal delimiter sequence (two
semicolons) into an ordered sequence of trimmed segments."  This is
JavaScript `split(';;')` semantics: leftmost, non-overlapping matches. -/
def splitOnDelim : List Char → List (List Char)
  | [] => [[]]
  | ';' :: ';' :: rest => [] :: splitOnDelim rest
  | c :: rest =>
    match splitOnDelim rest with
    | [] => [[c]]
    | seg :: segs => (c :: seg) :: segs

/-- Modelled from the spec: the parsed result triple (spec §3), "a
SalaryEstimate where field i is populated if segment i exists, else left
unresolved". -/
structure SalaryEstimate where
  salaryRange : Option (List Char)
  confidenceLevel : Option (List Char)
  reasoning : Option (List Char)
deriving DecidableEq, Repr

/-- Modelled from the spec: the Delimited Payload Parser applied to the
accumulated text buffer (spec §4.4): an empty or whitespace-only buffer
yields an all-unresolved result without error; otherwise split on `;;`,
trim each segment, and populate field i from segment i when it exists. -/
def parsePayload (buf : List Char) : SalaryEstimate :=
  if (trimChars buf).isEmpty then ⟨none, none, none⟩
  else
    let segs := (splitOnDelim buf).map trimChars
    ⟨segs.get? 0, segs.get? 1, segs.get? 2⟩

/-- The number of complete `;;` delimiter occurrences seen in the buffer. -/
def delimCount (buf : List Char) : Nat :=
  (splitOnDelim buf).length - 1

example : parsePayload "100k-120k ;; high ;; strong demand".data =
    ⟨some "100k-120k".data, some "high".data, some "strong demand".data⟩ := by decide
example : parsePayload [] = ⟨none, none, none⟩ := by decide
example : parsePayload "   ".data = ⟨none, none, none⟩ := by decide
example : parsePayload "100k-120k ;; h".data =
    ⟨some "100k-120k".data, some "h".data, none⟩ := by decide

/-- A character that needs no escaping inside a JSON string literal (and
is not a newline, since control characters are excluded). -/
def safeChar (c : Char) : Bool :=
  c ≠ '"' && c ≠ '\\' && 0x20 ≤ c.toNat

/-- A content fragment as it can actually appear in an upstream
content-delta frame: non-empty (the guard drops empty content) and free of
characters that would be escaped in the JSON encoding. -/
def safeFragment (c : List Char) : Bool :=
  !c.isEmpty && c.all safeChar

/-- A well-formed upstream content-delta frame carrying fragment `c`,
exactly as the completion service emits it:
`data: {"choices":[{"delta":{"content":"<c>"}}]}`. -/
def contentFrame (c : List Char) : List Char :=
  "data: \x7b\"choices\":[\x7b\"delta\":\x7b\"content\":\"".data ++ c ++ "\"\x7d\x7d]\x7d".data

/-- The parse of a well-formed content-delta frame's JSON payload. -/
def frameJson (c : List Char) : Json :=
  Json.obj [("choices".data,
    Json.arr [Json.obj [("delta".data,
      Json.obj [("content".data, Json.str c)])]])]

/-- The normalized downstream event for fragment `c`:
`data: <fragment>\n\n`. -/
def normalizedEvent (c : List Char) : List Char :=
  dataMarker ++ c ++ ['\n', '\n']

/-- A transport chunk consisting of the given logical frames in upstream
SSE framing (each frame line followed by a blank line). -/
def mkChunk (frames : List (List Char)) : List Char :=
  (frames.map (· ++ ['\n', '\n'])).flatten

/-- Whether processing a line throws inside the non-streaming variant's
try block: the line is a `data: ` line whose remainder fails `JSON.parse`
or whose content-guard evaluation raises a TypeError. -/
def nsLineThrows (line : List Char) : Bool :=
  dataMarker.isPrefixOf line &&
    (match jsonParse (line.drop 6) with
     | none => true
     | some j =>
       match nsDelta j with
       | .error _ => true
       | .ok _ => false)

/-- Decoding of a normalized event back to its fragment: strip the
6-character `data: ` marker and the two trailing newlines (the client-side
view of one event). -/
def eventFragment (e : List Char) : List Char :=
  ((e.drop 6).dropLast).dropLast

/-- C7: when the `OPENAI_API_KEY` credential is absent, every estimation
request (one carrying `jobData`) is answered with status 500 and a JSON
error body that names the missing credential, and the upstream `fetch`
is never performed — whatever the upstream would have answered. -/
theorem c7_missing_credential (fetch : FetchOutcome) :
    (serveHandler false true fetch).2.status = 500 ∧
    (serveHandler false true fetch).2.body =
      RespBody.json
        (stringifyError "OPENAI_API_KEY environment variable not set".data) ∧
    strIncludes
      (stringifyError "OPENAI_API_KEY environment variable not set".data)
      "OPENAI_API_KEY".data = true ∧
    (serveHandler false true fetch).1 = false := by
  refine ⟨rfl, rfl, by decide, rfl⟩

/-- C4 (claim is right, code is wrong): the abort signal handed to the
upstream call is a fresh `AbortController`'s signal on which `abort()` is
never invoked, so it is never aborted — in particular not when the client
has disconnected.  The claimed propagation of inbound cancellation does
not exist. -/
theorem c4_signal_never_aborted :
    upstreamSignalAborted true = false ∧
    ∀ clientDisconnected, upstreamSignalAborted clientDisconnected = false :=
  ⟨rfl, fun _ => rfl⟩

/-- C1 counterexample: with the credential present and `jobData` present,
an upstream 401 with body `bad key` is answered with status 200 (not 500)
and `Content-Type: text/event-stream` — a streaming response is started,
carrying the upstream status and body only as an in-band error event. -/
theorem c1_counterexample :
    (serveHandler true true
        (FetchOutcome.resp ⟨false, 401, "bad key".data, [], false⟩)).2.status = 200 ∧
    ¬ (serveHandler true true
        (FetchOutcome.resp ⟨false, 401, "bad key".data, [], false⟩)).2.status = 500 ∧
    (serveHandler true true
        (FetchOutcome.resp ⟨false, 401, "bad key".data, [], false⟩)).2.contentType =
      "text/event-stream".data := by
  refine ⟨rfl, by decide, rfl⟩

/-- C1 amended: on upstream non-success status the relay responds with
status 200 and `Content-Type: text/event-stream`, whose single event is a
terminal in-band `{"error":...}` frame embedding the upstream status and
error body (`OpenAI API error: <status> - <body>`); the transform is never
applied to upstream data. -/
theorem c1_upstream_rejection (st : Nat) (body chunks_unused : List Char)
    (berr : Bool) :
    serveHandler true true
        (FetchOutcome.resp ⟨false, st, body, [chunks_unused], berr⟩) =
      (true, ⟨200, "text/event-stream".data,
        RespBody.stream
          ⟨[errorEvent ("OpenAI API error: ".data ++ Nat.toDigits 10 st
              ++ " - ".data ++ body)], StreamEnd.closed⟩⟩) := rfl

/-- C3 counterexample: an upstream transport failure after the body stream
has begun (one content chunk delivered, then the body errors) produces a
client stream that ends in an error with no in-band `{"error":...}` frame:
its only event is the relayed content fragment.  The claimed terminal
error event is absent. -/
theorem c3_counterexample :
    estimateSalaryStream true
        (FetchOutcome.resp ⟨true, 200, [],
          ["data: \x7b\"choices\":[\x7b\"delta\":\x7b\"content\":\"100\"\x7d\x7d]\x7d".data], true⟩) =
      (true, FnResult.stream ⟨["data: 100\n\n".data], StreamEnd.errored⟩) ∧
    ("data: \x7b\"error\"".data).isPrefixOf "data: 100\n\n".data = false := by
  refine ⟨rfl, by decide⟩

/-- C3 amended: a failure of the upstream call itself (the `fetch` promise
rejecting before any response is obtained, e.g. an abort or network error
during the initial call) is surfaced as a single terminal in-band error
event; but a transport failure after the upstream body has begun streaming
propagates through the piped transform as a stream error, with no in-band
error event appended. -/
theorem c3_error_paths (msg : List Char) (r : UpstreamResponse)
    (hok : r.ok = true) :
    estimateSalaryStream true (FetchOutcome.fail msg) =
      (true, FnResult.stream ⟨[errorEvent msg], StreamEnd.closed⟩) ∧
    estimateSalaryStream true (FetchOutcome.resp r) =
      (true, FnResult.stream
        ⟨transformAll r.bodyChunks,
         if r.bodyErrored then StreamEnd.errored else StreamEnd.closed⟩) := by
  refine ⟨rfl, ?_⟩
  simp [estimateSalaryStream, hok]

/-- C3 witness: the amended theorem at a concrete initial-call failure and
a concrete mid-stream failure. -/
theorem c3_error_paths_witness :
    (estimateSalaryStream true (FetchOutcome.fail "network error".data) =
      (true, FnResult.stream ⟨[errorEvent "network error".data], StreamEnd.closed⟩) ∧
    estimateSalaryStream true
        (FetchOutcome.resp ⟨true, 200, [],
          ["data: \x7b\"choices\":[\x7b\"delta\":\x7b\"content\":\"100\"\x7d\x7d]\x7d".data], true⟩) =
      (true, FnResult.stream
        ⟨transformAll ["data: \x7b\"choices\":[\x7b\"delta\":\x7b\"content\":\"100\"\x7d\x7d]\x7d".data],
         if true then StreamEnd.errored else StreamEnd.closed⟩)) :=
  c3_error_paths "network error".data
    ⟨true, 200, [], ["data: \x7b\"choices\":[\x7b\"delta\":\x7b\"content\":\"100\"\x7d\x7d]\x7d".data], true⟩
    rfl

/-- C5: a transport chunk whose decoded text contains the sentinel line
`data: [DONE]` contributes no events at all, while chunks before and after
it in the relayed stream are still processed — the stream as a whole is
not ended by the sentinel. -/
theorem c5_done_sentinel (t : List Char) (pre post : List (List Char))
    (h : strIncludes t doneSentinel = true) :
    transformChunk t = [] ∧
    transformAll (pre ++ t :: post) = transformAll pre ++ transformAll post := by
  have h1 : transformChunk t = [] := by simp [transformChunk, h]
  exact ⟨h1, by simp [transformAll, h1]⟩

/-- C5 witness: a `[DONE]` chunk between two content chunks contributes
nothing while both neighbours are still transformed. -/
theorem c5_done_sentinel_witness :
    transformChunk "data: [DONE]".data = [] ∧
    transformAll
        (["data: \x7b\"choices\":[\x7b\"delta\":\x7b\"content\":\"100\"\x7d\x7d]\x7d".data] ++
          "data: [DONE]".data ::
          ["data: \x7b\"choices\":[\x7b\"delta\":\x7b\"content\":\"k-120k\"\x7d\x7d]\x7d".data]) =
      transformAll ["data: \x7b\"choices\":[\x7b\"delta\":\x7b\"content\":\"100\"\x7d\x7d]\x7d".data] ++
      transformAll ["data: \x7b\"choices\":[\x7b\"delta\":\x7b\"content\":\"k-120k\"\x7d\x7d]\x7d".data] :=
  c5_done_sentinel "data: [DONE]".data
    ["data: \x7b\"choices\":[\x7b\"delta\":\x7b\"content\":\"100\"\x7d\x7d]\x7d".data]
    ["data: \x7b\"choices\":[\x7b\"delta\":\x7b\"content\":\"k-120k\"\x7d\x7d]\x7d".data]
    (by decide)

/-- A safe string is parsed literally by the string-body parser. -/
theorem parseStringBody_safe (c : List Char) (rest : List Char)
    (h : c.all safeChar = true) :
    parseStringBody (c ++ '"' :: rest) = some (c, rest) := by
  induction c with
  | nil =>
    rw [List.nil_append, parseStringBody.eq_def]
    rfl
  | cons x xs ih =>
    rw [List.all_cons, Bool.and_eq_true] at h
    obtain ⟨hx, hxs⟩ := h
    simp only [safeChar, Bool.and_eq_true, decide_eq_true_eq, bne_iff_ne, ne_eq] at hx
    obtain ⟨⟨h1, h2⟩, h3⟩ := hx
    have h3' : ¬ x.toNat < 32 := Nat.not_lt.mpr h3
    rw [List.cons_append, parseStringBody.eq_def]
    simp [h1, h2, h3', ih hxs]

theorem parseMembersRest_close (m : Nat) (t : List Char) :
    parseMembersRest (m + 1) ('}' :: t) = some ([], t) := by
  rw [parseMembersRest.eq_def]
  rfl

theorem parseElemsRest_close (m : Nat) (t : List Char) :
    parseElemsRest (m + 1) (']' :: t) = some ([], t) := by
  rw [parseElemsRest.eq_def]
  rfl

theorem parseValue_string (c : List Char) (h : c.all safeChar = true)
    (m : Nat) (t : List Char) :
    parseValue (m + 1) ('"' :: (c ++ '"' :: t)) = some (Json.str c, t) := by
  rw [parseValue.eq_def]
  show (parseStringBody (c ++ '"' :: t)).map (fun p => (Json.str p.1, p.2)) = _
  rw [parseStringBody_safe c t h]
  rfl

theorem parseMembers_content (c : List Char) (h : c.all safeChar = true)
    (m : Nat) (t : List Char) :
    parseMembers (m + 2)
      ('"' :: 'c' :: 'o' :: 'n' :: 't' :: 'e' :: 'n' :: 't' :: '"' :: ':' :: '"' :: (c ++ '"' :: '}' ::t)) =
      some (Json.obj [("content".data, Json.str c)], t) := by
  have hkey : parseStringBody
      ('c' :: 'o' :: 'n' :: 't' :: 'e' :: 'n' :: 't' :: '"' ::(':' :: '"' ::(c ++ '"' :: '}' ::t))) =
      some ("content".data, ':' :: '"' ::(c ++ '"' :: '}' ::t)) :=
    parseStringBody_safe "content".data (':' :: '"' ::(c ++ '"' :: '}' ::t)) (by decide)
  rw [parseMembers.eq_def]
  show (match parseStringBody
      ('c' :: 'o' :: 'n' :: 't' :: 'e' :: 'n' :: 't' :: '"' ::(':' :: '"' ::(c ++ '"' :: '}' ::t))) with
    | none => none
    | some (k, cs2) =>
      match skipWs cs2 with
      | [] => none
      | c2 :: cs3 =>
        if c2 = ':' then
          match parseValue (m + 1) cs3 with
          | none => none
          | some (v, cs4) =>
            match parseMembersRest (m + 1) cs4 with
            | none => none
            | some (kvs, cs5) => some (Json.obj ((k, v) :: kvs), cs5)
        else none) = _
  rw [hkey]
  show (match parseValue (m + 1) ('"' :: (c ++ '"' :: '}' ::t)) with
    | none => none
    | some (v, cs4) =>
      match parseMembersRest (m + 1) cs4 with
      | none => none
      | some (kvs, cs5) => some (Json.obj (("content".data, v) :: kvs), cs5)) = _
  rw [parseValue_string c h m ('}' ::t)]
  show (match parseMembersRest (m + 1) ('}' ::t) with
    | none => none
    | some (kvs, cs5) => some (Json.obj (("content".data, Json.str c) :: kvs), cs5)) = _
  rw [parseMembersRest_close m t]

theorem parseValue_contentObj (c : List Char) (h : c.all safeChar = true)
    (m : Nat) (t : List Char) :
    parseValue (m + 3)
      ('{' :: '"' :: 'c' :: 'o' :: 'n' :: 't' :: 'e' :: 'n' :: 't' :: '"' :: ':' :: '"' :: (c ++ '"' :: '}' ::t)) =
      some (Json.obj [("content".data, Json.str c)], t) := by
  rw [parseValue.eq_def]
  show parseMembers (m + 2)
      ('"' :: 'c' :: 'o' :: 'n' :: 't' :: 'e' :: 'n' :: 't' :: '"' :: ':' :: '"' :: (c ++ '"' :: '}' ::t)) = _
  rw [parseMembers_content c h m t]

theorem parseMembers_delta (c : List Char) (h : c.all safeChar = true)
    (m : Nat) (t : List Char) :
    parseMembers (m + 5)
      ('"' :: 'd' :: 'e' :: 'l' :: 't' :: 'a' :: '"' :: ':' :: '{' :: '"' :: 'c' :: 'o' :: 'n' :: 't' :: 'e' :: 'n' :: 't' :: '"' :: ':' :: '"'
        :: (c ++ '"' :: '}' :: '}' ::t)) =
      some (Json.obj [("delta".data, Json.obj [("content".data, Json.str c)])], t) := by
  have hkey : parseStringBody
      ('d' :: 'e' :: 'l' :: 't' :: 'a' :: '"' ::(':' :: '{' :: '"' :: 'c' :: 'o' :: 'n' :: 't' :: 'e' :: 'n' :: 't' :: '"' :: ':' :: '"'
        :: (c ++ '"' :: '}' :: '}' ::t))) =
      some ("delta".data, ':' :: '{' :: '"' :: 'c' :: 'o' :: 'n' :: 't' :: 'e' :: 'n' :: 't' :: '"' :: ':' :: '"'
        :: (c ++ '"' :: '}' :: '}' ::t)) :=
    parseStringBody_safe "delta".data _ (by decide)
  rw [parseMembers.eq_def]
  show (match parseStringBody
      ('d' :: 'e' :: 'l' :: 't' :: 'a' :: '"' ::(':' :: '{' :: '"' :: 'c' :: 'o' :: 'n' :: 't' :: 'e' :: 'n' :: 't' :: '"' :: ':' :: '"'
        :: (c ++ '"' :: '}' :: '}' ::t))) with
    | none => none
    | some (k, cs2) =>
      match skipWs cs2 with
      | [] => none
      | c2 :: cs3 =>
        if c2 = ':' then
          match parseValue (m + 4) cs3 with
          | none => none
          | some (v, cs4) =>
            match parseMembersRest (m + 4) cs4 with
            | none => none
            | some (kvs, cs5) => some (Json.obj ((k, v) :: kvs), cs5)
        else none) = _
  rw [hkey]
  show (match parseValue ((m + 1) + 3)
      ('{' :: '"' :: 'c' :: 'o' :: 'n' :: 't' :: 'e' :: 'n' :: 't' :: '"' :: ':' :: '"' :: (c ++ '"' :: '}' ::('}' ::t))) with
    | none => none
    | some (v, cs4) =>
      match parseMembersRest ((m + 3) + 1) cs4 with
      | none => none
      | some (kvs, cs5) => some (Json.obj (("delta".data, v) :: kvs), cs5)) = _
  rw [parseValue_contentObj c h (m + 1) ('}' ::t)]
  show (match parseMembersRest ((m + 3) + 1) ('}' ::t) with
    | none => none
    | some (kvs, cs5) =>
      some (Json.obj (("delta".data, Json.obj [("content".data, Json.str c)]) :: kvs), cs5)) = _
  rw [parseMembersRest_close (m + 3) t]

theorem parseValue_deltaObj (c : List Char) (h : c.all safeChar = true)
    (m : Nat) (t : List Char) :
    parseValue (m + 6)
      ('{' :: '"' :: 'd' :: 'e' :: 'l' :: 't' :: 'a' :: '"' :: ':' :: '{' :: '"' :: 'c' :: 'o' :: 'n' :: 't' :: 'e' :: 'n' :: 't' :: '"' :: ':' :: '"'
        :: (c ++ '"' :: '}' :: '}' ::t)) =
      some (Json.obj [("delta".data, Json.obj [("content".data, Json.str c)])], t) := by
  rw [parseValue.eq_def]
  show parseMembers (m + 5)
      ('"' :: 'd' :: 'e' :: 'l' :: 't' :: 'a' :: '"' :: ':' :: '{' :: '"' :: 'c' :: 'o' :: 'n' :: 't' :: 'e' :: 'n' :: 't' :: '"' :: ':' :: '"'
        :: (c ++ '"' :: '}' :: '}' ::t)) = _
  rw [parseMembers_delta c h m t]

theorem parseElems_one (c : List Char) (h : c.all safeChar = true)
    (m : Nat) (t : List Char) :
    parseElems (m + 7)
      ('{' :: '"' :: 'd' :: 'e' :: 'l' :: 't' :: 'a' :: '"' :: ':' :: '{' :: '"' :: 'c' :: 'o' :: 'n' :: 't' :: 'e' :: 'n' :: 't' :: '"' :: ':' :: '"'
        :: (c ++ '"' :: '}' :: '}' :: ']' ::t)) =
      some (Json.arr [Json.obj [("delta".data, Json.obj [("content".data, Json.str c)])]], t) := by
  rw [parseElems.eq_def]
  show (match parseValue ((m) + 6)
      ('{' :: '"' :: 'd' :: 'e' :: 'l' :: 't' :: 'a' :: '"' :: ':' :: '{' :: '"' :: 'c' :: 'o' :: 'n' :: 't' :: 'e' :: 'n' :: 't' :: '"' :: ':' :: '"'
        :: (c ++ '"' :: '}' :: '}' ::(']' ::t))) with
    | none => none
    | some (v, cs2) =>
      match parseElemsRest (m + 6) cs2 with
      | none => none
      | some (vs, cs3) => some (Json.arr (v :: vs), cs3)) = _
  rw [parseValue_deltaObj c h m (']' ::t)]
  show (match parseElemsRest ((m + 5) + 1) (']' ::t) with
    | none => none
    | some (vs, cs3) =>
      some (Json.arr (Json.obj [("delta".data, Json.obj [("content".data, Json.str c)])] :: vs), cs3)) = _
  rw [parseElemsRest_close (m + 5) t]

theorem parseValue_choicesArr (c : List Char) (h : c.all safeChar = true)
    (m : Nat) (t : List Char) :
    parseValue (m + 8)
      ('[' :: '{' :: '"' :: 'd' :: 'e' :: 'l' :: 't' :: 'a' :: '"' :: ':' :: '{' :: '"' :: 'c' :: 'o' :: 'n' :: 't' :: 'e' :: 'n' :: 't' :: '"' :: ':' :: '"'
        :: (c ++ '"' :: '}' :: '}' :: ']' ::t)) =
      some (Json.arr [Json.obj [("delta".data, Json.obj [("content".data, Json.str c)])]], t) := by
  rw [parseValue.eq_def]
  show parseElems (m + 7)
      ('{' :: '"' :: 'd' :: 'e' :: 'l' :: 't' :: 'a' :: '"' :: ':' :: '{' :: '"' :: 'c' :: 'o' :: 'n' :: 't' :: 'e' :: 'n' :: 't' :: '"' :: ':' :: '"'
        :: (c ++ '"' :: '}' :: '}' :: ']' ::t)) = _
  rw [parseElems_one c h m t]

theorem parseMembers_choices (c : List Char) (h : c.all safeChar = true)
    (m : Nat) (t : List Char) :
    parseMembers (m + 10)
      ('"' :: 'c' :: 'h' :: 'o' :: 'i' :: 'c' :: 'e' :: 's' :: '"' :: ':' :: '[' :: '{' :: '"' :: 'd' :: 'e' :: 'l' :: 't' :: 'a' :: '"' :: ':'
        :: '{' :: '"' :: 'c' :: 'o' :: 'n' :: 't' :: 'e' :: 'n' :: 't' :: '"' :: ':' :: '"' :: (c ++ '"' :: '}' :: '}' :: ']' :: '}' ::t)) =
      some (frameJson c, t) := by
  have hkey : parseStringBody
      ('c' :: 'h' :: 'o' :: 'i' :: 'c' :: 'e' :: 's' :: '"' ::(':' :: '[' :: '{' :: '"' :: 'd' :: 'e' :: 'l' :: 't' :: 'a' :: '"' :: ':'
        :: '{' :: '"' :: 'c' :: 'o' :: 'n' :: 't' :: 'e' :: 'n' :: 't' :: '"' :: ':' :: '"' :: (c ++ '"' :: '}' :: '}' :: ']' :: '}' ::t))) =
      some ("choices".data, ':' :: '[' :: '{' :: '"' :: 'd' :: 'e' :: 'l' :: 't' :: 'a' :: '"' :: ':'
        :: '{' :: '"' :: 'c' :: 'o' :: 'n' :: 't' :: 'e' :: 'n' :: 't' :: '"' :: ':' :: '"' :: (c ++ '"' :: '}' :: '}' :: ']' :: '}' ::t)) :=
    parseStringBody_safe "choices".data _ (by decide)
  rw [parseMembers.eq_def]
  show (match parseStringBody
      ('c' :: 'h' :: 'o' :: 'i' :: 'c' :: 'e' :: 's' :: '"' ::(':' :: '[' :: '{' :: '"' :: 'd' :: 'e' :: 'l' :: 't' :: 'a' :: '"' :: ':'
        :: '{' :: '"' :: 'c' :: 'o' :: 'n' :: 't' :: 'e' :: 'n' :: 't' :: '"' :: ':' :: '"' :: (c ++ '"' :: '}' :: '}' :: ']' :: '}' ::t))) with
    | none => none
    | some (k, cs2) =>
      match skipWs cs2 with
      | [] => none
      | c2 :: cs3 =>
        if c2 = ':' then
          match parseValue (m + 9) cs3 with
          | none => none
          | some (v, cs4) =>
            match parseMembersRest (m + 9) cs4 with
            | none => none
            | some (kvs, cs5) => some (Json.obj ((k, v) :: kvs), cs5)
        else none) = _
  rw [hkey]
  show (match parseValue ((m + 1) + 8)
      ('[' :: '{' :: '"' :: 'd' :: 'e' :: 'l' :: 't' :: 'a' :: '"' :: ':' :: '{' :: '"' :: 'c' :: 'o' :: 'n' :: 't' :: 'e' :: 'n' :: 't' :: '"' :: ':' :: '"'
        :: (c ++ '"' :: '}' :: '}' :: ']' ::('}' ::t))) with
    | none => none
    | some (v, cs4) =>
      match parseMembersRest ((m + 8) + 1) cs4 with
      | none => none
      | some (kvs, cs5) => some (Json.obj (("choices".data, v) :: kvs), cs5)) = _
  rw [parseValue_choicesArr c h (m + 1) ('}' ::t)]
  show (match parseMembersRest ((m + 8) + 1) ('}' ::t) with
    | none => none
    | some (kvs, cs5) =>
      some (Json.obj (("choices".data,
        Json.arr [Json.obj [("delta".data, Json.obj [("content".data, Json.str c)])]]) :: kvs), cs5)) = _
  rw [parseMembersRest_close (m + 8) t]
  rfl

theorem parseValue_payload (c : List Char) (h : c.all safeChar = true)
    (m : Nat) (t : List Char) :
    parseValue (m + 11)
      ('{' :: '"' :: 'c' :: 'h' :: 'o' :: 'i' :: 'c' :: 'e' :: 's' :: '"' :: ':' :: '[' :: '{' :: '"' :: 'd' :: 'e' :: 'l' :: 't' :: 'a' :: '"' :: ':'
        :: '{' :: '"' :: 'c' :: 'o' :: 'n' :: 't' :: 'e' :: 'n' :: 't' :: '"' :: ':' :: '"' :: (c ++ '"' :: '}' :: '}' :: ']' :: '}' ::t)) =
      some (frameJson c, t) := by
  rw [parseValue.eq_def]
  show parseMembers (m + 10)
      ('"' :: 'c' :: 'h' :: 'o' :: 'i' :: 'c' :: 'e' :: 's' :: '"' :: ':' :: '[' :: '{' :: '"' :: 'd' :: 'e' :: 'l' :: 't' :: 'a' :: '"' :: ':'
        :: '{' :: '"' :: 'c' :: 'o' :: 'n' :: 't' :: 'e' :: 'n' :: 't' :: '"' :: ':' :: '"' :: (c ++ '"' :: '}' :: '}' :: ']' :: '}' ::t)) = _
  rw [parseMembers_choices c h m t]

theorem jsonParse_frame (c : List Char) (h : c.all safeChar = true) :
    jsonParse ((contentFrame c).drop 6) = some (frameJson c) := by
  have hdrop : (contentFrame c).drop 6 =
      ('{' :: '"' :: 'c' :: 'h' :: 'o' :: 'i' :: 'c' :: 'e' :: 's' :: '"' :: ':' :: '[' :: '{' :: '"' :: 'd' :: 'e' :: 'l' :: 't' :: 'a' :: '"' :: ':'
        :: '{' :: '"' :: 'c' :: 'o' :: 'n' :: 't' :: 'e' :: 'n' :: 't' :: '"' :: ':' :: '"' :: (c ++ '"' :: '}' :: '}' :: ']' :: '}' ::[])) := rfl
  rw [hdrop]
  show (match parseValue
      (('{' :: '"' :: 'c' :: 'h' :: 'o' :: 'i' :: 'c' :: 'e' :: 's' :: '"' :: ':' :: '[' :: '{' :: '"' :: 'd' :: 'e' :: 'l' :: 't' :: 'a' :: '"' :: ':'
        :: '{' :: '"' :: 'c' :: 'o' :: 'n' :: 't' :: 'e' :: 'n' :: 't' :: '"' :: ':' :: '"' :: (c ++ '"' :: '}' :: '}' :: ']' :: '}' ::[])).length + 2)
      ('{' :: '"' :: 'c' :: 'h' :: 'o' :: 'i' :: 'c' :: 'e' :: 's' :: '"' :: ':' :: '[' :: '{' :: '"' :: 'd' :: 'e' :: 'l' :: 't' :: 'a' :: '"' :: ':'
        :: '{' :: '"' :: 'c' :: 'o' :: 'n' :: 't' :: 'e' :: 'n' :: 't' :: '"' :: ':' :: '"' :: (c ++ '"' :: '}' :: '}' :: ']' :: '}' ::[])) with
    | some (v, rest) => if skipWs rest = [] then some v else none
    | none => none) = _
  have hlen : (('{' :: '"' :: 'c' :: 'h' :: 'o' :: 'i' :: 'c' :: 'e' :: 's' :: '"' :: ':' :: '[' :: '{' :: '"' :: 'd' :: 'e' :: 'l' :: 't' :: 'a' :: '"' :: ':'
        :: '{' :: '"' :: 'c' :: 'o' :: 'n' :: 't' :: 'e' :: 'n' :: 't' :: '"' :: ':' :: '"' :: (c ++ '"' :: '}' :: '}' :: ']' :: '}' ::[])).length + 2)
      = (c.length + 29) + 11 := by
    simp [List.length_append, List.length_cons]
  rw [hlen, parseValue_payload c h (c.length + 29) []]
  rfl

theorem streamDelta_frame (x : Char) (xs : List Char) :
    streamDelta (frameJson (x :: xs)) = Except.ok (some (Json.str (x :: xs))) := by
  rfl

theorem jsToString_str (s : List Char) : jsToString (Json.str s) = s := by
  rw [jsToString.eq_def]

theorem processLine_frame (c : List Char) (hs : safeFragment c = true) :
    processLine (contentFrame c) = [normalizedEvent c] := by
  obtain ⟨hne, hall⟩ := Bool.and_eq_true .. |>.mp hs
  have hpfx : dataMarker.isPrefixOf (contentFrame c) = true := by
    rw [List.isPrefixOf_iff_prefix,
      show contentFrame c =
        dataMarker ++ ('{' :: '"' :: 'c' :: 'h' :: 'o' :: 'i' :: 'c' :: 'e' :: 's' :: '"' :: ':' :: '[' :: '{' :: '"' :: 'd' :: 'e' :: 'l'
          :: 't' :: 'a' :: '"' :: ':' :: '{' :: '"' :: 'c' :: 'o' :: 'n' :: 't' :: 'e' :: 'n' :: 't' :: '"' :: ':' :: '"'
          :: (c ++ '"' :: '}' :: '}' :: ']' :: '}' ::[])) from rfl]
    exact List.prefix_append _ _
  obtain ⟨y, ys, rfl⟩ : ∃ y ys, c = y :: ys := by
    cases c with
    | nil => simp at hne
    | cons y ys => exact ⟨y, ys, rfl⟩
  simp only [processLine, hpfx, Bool.not_true, Bool.false_eq_true, if_false,
    jsonParse_frame (y :: ys) hall, streamDelta_frame y ys, jsToString_str, normalizedEvent]

theorem splitOnChar_no_sep (sep : Char) (s : List Char)
    (h : ∀ ch ∈ s, ¬ ch = sep) :
    splitOnChar sep s = [s] := by
  induction s with
  | nil => rfl
  | cons x xs ih =>
    have hx : ¬ x = sep := h x (List.mem_cons_self x xs)
    have ih' := ih (fun ch hch => h ch (List.mem_cons_of_mem x hch))
    simp [splitOnChar, hx, ih']

theorem splitOnChar_append_cons (sep : Char) (a r : List Char)
    (h : ∀ ch ∈ a, ¬ ch = sep) :
    splitOnChar sep (a ++ sep :: r) = a :: splitOnChar sep r := by
  induction a with
  | nil => simp [splitOnChar]
  | cons x xs ih =>
    have hx : ¬ x = sep := h x (List.mem_cons_self x xs)
    have ih' := ih (fun ch hch => h ch (List.mem_cons_of_mem x hch))
    simp [splitOnChar, hx, ih']

theorem trimChars_nonempty (l : List Char) (x : Char) (hx : x ∈ l)
    (hw : x.isWhitespace = false) :
    (trimChars l).isEmpty = false := by
  cases he : (trimChars l).isEmpty with
  | false => rfl
  | true =>
    exfalso
    rw [List.isEmpty_iff] at he
    have h1 : ((l.dropWhile Char.isWhitespace).reverse.dropWhile Char.isWhitespace) = [] := by
      have := congrArg List.reverse he
      simpa [trimChars] using this
    rw [List.dropWhile_eq_nil_iff] at h1
    have hall : ∀ y ∈ l, y.isWhitespace = true := by
      intro y hy
      rw [← @List.takeWhile_append_dropWhile _ Char.isWhitespace l] at hy
      rcases List.mem_append.mp hy with h' | h'
      · exact List.mem_takeWhile_imp h'
      · exact h1 y (List.mem_reverse.mpr h')
    rw [hall x hx] at hw
    exact Bool.noConfusion hw

theorem contentFrame_no_newline (c : List Char) (hall : c.all safeChar = true) :
    ∀ ch ∈ contentFrame c, ¬ ch = '\n' := by
  intro ch hch
  have hA : ∀ x ∈ ("data: \x7b\"choices\":[\x7b\"delta\":\x7b\"content\":\"".data : List Char),
      ¬ x = '\n' := by decide
  have hB : ∀ x ∈ ("\"\x7d\x7d]\x7d".data : List Char), ¬ x = '\n' := by decide
  simp only [contentFrame, List.append_assoc, List.mem_append] at hch
  rcases hch with hch | hch | hch
  · exact hA ch hch
  · have hc := List.all_eq_true.mp hall ch hch
    intro heq
    rw [heq] at hc
    exact absurd hc (by decide)
  · exact hB ch hch

theorem mkChunk_cons (f : List Char) (fs : List (List Char)) :
    mkChunk (f :: fs) = f ++ '\n' :: '\n' :: mkChunk fs := by
  simp [mkChunk]

theorem transformChunk_contentFrames (cs : List (List Char))
    (hs : ∀ c ∈ cs, safeFragment c = true)
    (hdone : strIncludes (mkChunk (cs.map contentFrame)) doneSentinel = false) :
    transformChunk (mkChunk (cs.map contentFrame)) = cs.map normalizedEvent := by
  have aux : ∀ (ds : List (List Char)), (∀ c ∈ ds, safeFragment c = true) →
      ((((splitOnChar '\n' (mkChunk (ds.map contentFrame))).filter
          (fun l => !(trimChars l).isEmpty)).map processLine).flatten) =
        ds.map normalizedEvent := by
    intro ds
    induction ds with
    | nil => intro _; rfl
    | cons c cs' ih =>
      intro hds
      have hsc : safeFragment c = true := hds c (List.mem_cons_self c cs')
      have hall : c.all safeChar = true := (Bool.and_eq_true .. |>.mp hsc).2
      have hnl := contentFrame_no_newline c hall
      have ih' := ih (fun d hd => hds d (List.mem_cons_of_mem c hd))
      have hkeep : (trimChars (contentFrame c)).isEmpty = false :=
        trimChars_nonempty (contentFrame c) 'd'
          (List.mem_append.mpr (Or.inl (List.mem_append.mpr (Or.inl (by decide)))))
          (by decide)
      rw [List.map_cons, mkChunk_cons, splitOnChar_append_cons '\n' _ _ hnl,
        show splitOnChar '\n' ('\n' :: mkChunk (cs'.map contentFrame)) =
          [] :: splitOnChar '\n' (mkChunk (cs'.map contentFrame)) from by simp [splitOnChar]]
      have hempty : (trimChars ([] : List Char)).isEmpty = true := by decide
      simp [List.filter_cons, hkeep, hempty, processLine_frame c hsc, ih']
  rw [transformChunk, if_neg (by rw [hdone]; exact Bool.false_ne_true)]
  exact aux cs hs

theorem eventFragment_normalized (c : List Char) :
    eventFragment (normalizedEvent c) = c := by
  have h1 : normalizedEvent c = dataMarker ++ ((c ++ ['\n']) ++ ['\n']) := by
    simp [normalizedEvent]
  rw [eventFragment, h1, show (6 : Nat) = dataMarker.length from rfl, List.drop_left]
  simp

/-- C2: for every sequence of transport chunks, each consisting of
well-formed `data: `-prefixed content-delta frames (with realistic,
non-empty, escape-free fragments and no sentinel text), the transform
emits exactly one normalized event `data: <fragment>\n\n` per frame, in
upstream order; stripping the framing recovers the fragments, so their
concatenation reproduces the upstream completion text. -/
theorem c2_order_preserving (chunks : List (List (List Char)))
    (hs : ∀ cs ∈ chunks, ∀ c ∈ cs, safeFragment c = true)
    (hdone : ∀ cs ∈ chunks,
      strIncludes (mkChunk (cs.map contentFrame)) doneSentinel = false) :
    transformAll (chunks.map (fun cs => mkChunk (cs.map contentFrame))) =
      (chunks.flatten).map normalizedEvent ∧
    (transformAll (chunks.map (fun cs => mkChunk (cs.map contentFrame)))).map
        eventFragment = chunks.flatten := by
  have hmain : transformAll (chunks.map (fun cs => mkChunk (cs.map contentFrame))) =
      (chunks.flatten).map normalizedEvent := by
    induction chunks with
    | nil => rfl
    | cons cs chunks' ih =>
      have h1 := transformChunk_contentFrames cs
        (hs cs (List.mem_cons_self cs chunks'))
        (hdone cs (List.mem_cons_self cs chunks'))
      have ih' := ih (fun ds hd => hs ds (List.mem_cons_of_mem cs hd))
        (fun ds hd => hdone ds (List.mem_cons_of_mem cs hd))
      simp [transformAll] at ih' ⊢
      simp [h1, ih']
  refine ⟨hmain, ?_⟩
  rw [hmain, List.map_map]
  have : eventFragment ∘ normalizedEvent = id := by
    funext c
    exact eventFragment_normalized c
  rw [this, List.map_id]

theorem c2_order_preserving_witness :
    (transformAll
        ([["100".data], ["k-120k".data], [" ;; high ;; strong demand".data]].map
          (fun cs => mkChunk (cs.map contentFrame))) =
      ([["100".data], ["k-120k".data], [" ;; high ;; strong demand".data]].flatten).map
        normalizedEvent ∧
    (transformAll
        ([["100".data], ["k-120k".data], [" ;; high ;; strong demand".data]].map
          (fun cs => mkChunk (cs.map contentFrame)))).map eventFragment =
      [["100".data], ["k-120k".data], [" ;; high ;; strong demand".data]].flatten) :=
  c2_order_preserving [["100".data], ["k-120k".data], [" ;; high ;; strong demand".data]]
    (by decide) (by decide)

/-- C6: a malformed frame line (a `data: ` line whose remainder is not
valid JSON) arriving as its own transport chunk between valid chunks is
skipped without contributing events, and every subsequent chunk is still
processed: the malformed frame never aborts the stream. -/
theorem c6_malformed_frame_skipped (pre post : List (List Char)) (m : List Char)
    (hpfx : dataMarker.isPrefixOf m = true)
    (hparse : jsonParse (m.drop 6) = none)
    (hnl : ∀ ch ∈ m, ¬ ch = '\n')
    (hdone : strIncludes m doneSentinel = false) :
    transformChunk m = [] ∧
    transformAll (pre ++ m :: post) = transformAll pre ++ transformAll post := by
  have hline : processLine m = [] := by
    simp [processLine, hpfx, hparse]
  have hchunk : transformChunk m = [] := by
    rw [transformChunk, if_neg (by rw [hdone]; exact Bool.false_ne_true),
      splitOnChar_no_sep '\n' m hnl]
    cases hf : (trimChars m).isEmpty <;> simp [List.filter_cons, hf, hline]
  exact ⟨hchunk, by simp [transformAll, hchunk]⟩

/-- C6 witness: a malformed line between two valid content frames
contributes nothing while both neighbours are still transformed. -/
theorem c6_malformed_frame_skipped_witness :
    transformChunk "data: \x7bnot json\x7d".data = [] ∧
    transformAll
        (["data: \x7b\"choices\":[\x7b\"delta\":\x7b\"content\":\"100\"\x7d\x7d]\x7d".data] ++
          "data: \x7bnot json\x7d".data ::
          ["data: \x7b\"choices\":[\x7b\"delta\":\x7b\"content\":\"k-120k\"\x7d\x7d]\x7d".data]) =
      transformAll ["data: \x7b\"choices\":[\x7b\"delta\":\x7b\"content\":\"100\"\x7d\x7d]\x7d".data] ++
      transformAll ["data: \x7b\"choices\":[\x7b\"delta\":\x7b\"content\":\"k-120k\"\x7d\x7d]\x7d".data] :=
  c6_malformed_frame_skipped
    ["data: \x7b\"choices\":[\x7b\"delta\":\x7b\"content\":\"100\"\x7d\x7d]\x7d".data]
    ["data: \x7b\"choices\":[\x7b\"delta\":\x7b\"content\":\"k-120k\"\x7d\x7d]\x7d".data]
    "data: \x7bnot json\x7d".data
    (by decide) (by rfl) (by decide) (by decide)

/-- A falsy value is `undefined`, `null`, or a primitive whose property
accesses and indexings all yield `undefined` without throwing. -/
theorem falsy_access (v : JsVal) (hv : truthyV v = false) :
    v = JsVal.undef ∨ v = JsVal.val Json.null ∨
      ((∀ k, getField v k = .ok JsVal.undef) ∧
       (∀ i, getIndex v i = .ok JsVal.undef)) := by
  cases v with
  | undef => exact Or.inl rfl
  | val j =>
    cases j with
    | null => exact Or.inr (Or.inl rfl)
    | bool b => exact Or.inr (Or.inr ⟨fun k => rfl, fun i => rfl⟩)
    | num z raw => exact Or.inr (Or.inr ⟨fun k => rfl, fun i => rfl⟩)
    | str s =>
      have hs : s = [] := by
        simp [truthyV, truthyJ] at hv
        exact hv
      subst hs
      exact Or.inr (Or.inr ⟨fun k => rfl, fun i => by cases i <;> rfl⟩)
    | arr es => simp [truthyV, truthyJ] at hv
    | obj kvs => simp [truthyV, truthyJ] at hv

/-- The streaming guard emits a fragment exactly when the unguarded path
`choices[0].delta.content` evaluates without a TypeError to a truthy
value. -/
theorem streamDelta_raw_characterization (j : Json) :
    (∃ cj, streamDelta j = Except.ok (some cj)) ↔
    (∃ v, rawDeltaPath j = Except.ok v ∧ truthyV v = true) := by
  simp only [streamDelta, rawDeltaPath, bind, Except.bind, pure, Except.pure]
  cases h1 : getField (JsVal.val j) "choices".data with
  | error e => simp
  | ok choices =>
    simp only []
    cases hT : truthyV choices with
    | false =>
      simp only [hT, Bool.false_eq_true, if_true]
      rcases falsy_access choices hT with rfl | rfl | ⟨hf, hi⟩
      · simp [getIndex]
      · simp [getIndex]
      · simp [hi 0, getField]
    | true =>
      simp only [hT, Bool.true_eq_false, if_false]
      cases h2 : getIndex choices 0 with
      | error e => simp
      | ok c0 =>
        cases hT0 : truthyV c0 with
        | false =>
          simp only [hT0, Bool.false_eq_true, if_true]
          rcases falsy_access c0 hT0 with rfl | rfl | ⟨hf, hi⟩
          · simp [getField]
          · simp [getField]
          · rw [hf "delta".data]
            simp [getField, truthyV]
        | true =>
          simp only [hT0, Bool.true_eq_false, if_false]
          cases h3 : getField c0 "delta".data with
          | error e => simp
          | ok d =>
            cases hTd : truthyV d with
            | false =>
              simp only [hTd, Bool.false_eq_true, if_true]
              rcases falsy_access d hTd with rfl | rfl | ⟨hf, hi⟩
              · simp [getField]
              · simp [getField]
              · simp [hf "content".data, truthyV]
            | true =>
              simp only [hTd, Bool.true_eq_false, if_false]
              cases h4 : getField d "content".data with
              | error e => simp
              | ok content =>
                cases content with
                | undef => simp [truthyV]
                | val cj =>
                  cases hTc : truthyJ cj with
                  | false => simp [truthyV, hTc]
                  | true =>
                    simp [truthyV, hTc]

/-- C10: a `data: ` line whose remainder parses as JSON `j` produces a
downstream event iff the unguarded path `choices[0].delta.content`
evaluates on `j` without a TypeError to a truthy value; in particular a
well-formed content-delta frame with empty-string content, and a
role-only delta frame without the content path, produce no event. -/
theorem c10_truthy_content_guard (s : List Char) (j : Json)
    (hparse : jsonParse s = some j) :
    (processLine (dataMarker ++ s) ≠ [] ↔
      (∃ v, rawDeltaPath j = Except.ok v ∧ truthyV v = true)) ∧
    processLine "data: \x7b\"choices\":[\x7b\"delta\":\x7b\"content\":\"\"\x7d\x7d]\x7d".data = [] ∧
    processLine "data: \x7b\"choices\":[\x7b\"delta\":\x7b\"role\":\"assistant\"\x7d\x7d]\x7d".data = [] := by
  refine ⟨?_, rfl, rfl⟩
  have hpfx : dataMarker.isPrefixOf (dataMarker ++ s) = true := by
    rw [List.isPrefixOf_iff_prefix]
    exact List.prefix_append _ _
  have hdrop : (dataMarker ++ s).drop 6 = s := by
    rw [show (6 : Nat) = dataMarker.length from rfl]
    exact List.drop_left _ _
  rw [← streamDelta_raw_characterization j]
  simp only [processLine, hpfx, Bool.not_true, Bool.false_eq_true, if_false,
    hdrop, hparse]
  cases hsd : streamDelta j with
  | error e => simp
  | ok o => cases o <;> simp

/-- C10 witness: the characterization at a concrete content-delta frame
with fragment `x`. -/
theorem c10_truthy_content_guard_witness :
    ((processLine (dataMarker ++ "\x7b\"choices\":[\x7b\"delta\":\x7b\"content\":\"x\"\x7d\x7d]\x7d".data) ≠ [] ↔
      (∃ v, rawDeltaPath (frameJson "x".data) = Except.ok v ∧ truthyV v = true)) ∧
    processLine "data: \x7b\"choices\":[\x7b\"delta\":\x7b\"content\":\"\"\x7d\x7d]\x7d".data = [] ∧
    processLine "data: \x7b\"choices\":[\x7b\"delta\":\x7b\"role\":\"assistant\"\x7d\x7d]\x7d".data = []) :=
  c10_truthy_content_guard "\x7b\"choices\":[\x7b\"delta\":\x7b\"content\":\"x\"\x7d\x7d]\x7d".data
    (frameJson "x".data) (by rfl)

/-- When the non-streaming guard evaluates without throwing, the streaming
guard produces the same outcome (the extra `choices[0] &&` conjunct only
prevents TypeErrors, it never changes a non-throwing result). -/
theorem nsDelta_ok_eq (j : Json) (r : Option Json)
    (h : nsDelta j = Except.ok r) : streamDelta j = Except.ok r := by
  simp only [nsDelta, streamDelta, bind, Except.bind, pure, Except.pure] at h ⊢
  cases h1 : getField (JsVal.val j) "choices".data with
  | error e =>
    simp only [h1] at h
    exact Except.noConfusion h
  | ok choices =>
    simp only [h1] at h ⊢
    cases hT : truthyV choices with
    | false =>
      simp only [hT] at h ⊢
      simpa using h
    | true =>
      simp only [hT, Bool.true_eq_false, if_false] at h ⊢
      cases h2 : getIndex choices 0 with
      | error e =>
        simp only [h2] at h
        exact Except.noConfusion h
      | ok c0 =>
        simp only [h2] at h ⊢
        cases h3 : getField c0 "delta".data with
        | error e =>
          simp only [h3] at h
          exact Except.noConfusion h
        | ok d =>
          simp only [h3] at h
          cases hT0 : truthyV c0 with
          | true =>
            simp only [hT0, Bool.true_eq_false, if_false, h3]
            exact h
          | false =>
            rcases falsy_access c0 hT0 with rfl | rfl | ⟨hf, hi⟩
            · exact absurd h3 (by simp [getField])
            · exact absurd h3 (by simp [getField])
            · have hd : d = JsVal.undef := by
                rw [hf "delta".data] at h3
                cases h3
                rfl
              subst hd
              simp only [hT0]
              simp only [truthyV] at h
              simpa using h

/-- On a line whose processing does not throw in the non-streaming
variant, the two per-line transforms agree. -/
theorem processLine_agree (line : List Char)
    (hthrow : nsLineThrows line = false) :
    processLine line = processLineNS line := by
  cases hpfx : dataMarker.isPrefixOf line with
  | false => simp [processLine, processLineNS, hpfx]
  | true =>
    rw [nsLineThrows, hpfx, Bool.true_and] at hthrow
    cases hparse : jsonParse (line.drop 6) with
    | none => rw [hparse] at hthrow; exact absurd hthrow (by simp)
    | some j =>
      rw [hparse] at hthrow
      have hns' : (match nsDelta j with
        | Except.error _ => true
        | Except.ok _ => false) = false := hthrow
      cases hns : nsDelta j with
      | error e => rw [hns] at hns'; exact absurd hns' (by simp)
      | ok r =>
        have hsd := nsDelta_ok_eq j r hns
        cases r with
        | none => simp [processLine, processLineNS, hpfx, hparse, hns, hsd]
        | some cj => simp [processLine, processLineNS, hpfx, hparse, hns, hsd]

/-- A throwing evaluation of the non-streaming guard leaves the streaming
guard either throwing at the same step or short-circuited to no content
(never emitting). -/
theorem nsDelta_error_cases (j : Json) (h : nsDelta j = Except.error ()) :
    streamDelta j = Except.error () ∨ streamDelta j = Except.ok none := by
  simp only [nsDelta, streamDelta, bind, Except.bind, pure, Except.pure] at h ⊢
  cases h1 : getField (JsVal.val j) "choices".data with
  | error e =>
    simp only [h1]
    exact Or.inl trivial
  | ok choices =>
    simp only [h1] at h ⊢
    cases hT : truthyV choices with
    | false =>
      simp only [hT] at h ⊢
      simp at h
    | true =>
      simp only [hT, Bool.true_eq_false, if_false] at h ⊢
      cases h2 : getIndex choices 0 with
      | error e =>
        simp only [h2]
        exact Or.inl trivial
      | ok c0 =>
        simp only [h2] at h ⊢
        cases h3 : getField c0 "delta".data with
        | error e =>
          simp only [h3] at h ⊢
          cases hT0 : truthyV c0 with
          | false => simp only [hT0, Bool.false_eq_true]; exact Or.inr rfl
          | true => simp only [hT0, Bool.true_eq_false, if_false]; exact Or.inl trivial
        | ok d =>
          simp only [h3] at h ⊢
          cases hTd : truthyV d with
          | false => simp only [hTd] at h; simp at h
          | true =>
            simp only [hTd, Bool.true_eq_false, if_false] at h ⊢
            cases h4 : getField d "content".data with
            | error e =>
              simp only [h4] at h ⊢
              cases hT0 : truthyV c0 with
              | false => simp only [hT0, Bool.false_eq_true]; exact Or.inr rfl
              | true => simp only [hT0, Bool.true_eq_false, if_false]; exact Or.inl trivial
            | ok content =>
              simp only [h4] at h
              cases content with
              | undef => simp at h
              | val cj => cases hTc : truthyJ cj <;> simp [hTc] at h

/-- On a line whose processing throws, the streaming variant emits
nothing while the non-streaming variant re-emits the raw remainder. -/
theorem processLine_throw (line : List Char)
    (hpfx : dataMarker.isPrefixOf line = true)
    (hthrow : nsLineThrows line = true) :
    processLine line = [] ∧
    processLineNS line = [dataMarker ++ line.drop 6 ++ ['
', '
']] := by
  rw [nsLineThrows, hpfx, Bool.true_and] at hthrow
  cases hparse : jsonParse (line.drop 6) with
  | none => simp [processLine, processLineNS, hpfx, hparse]
  | some j =>
    rw [hparse] at hthrow
    have hns' : (match nsDelta j with
      | Except.error _ => true
      | Except.ok _ => false) = true := hthrow
    cases hns : nsDelta j with
    | ok r => rw [hns] at hns'; exact absurd hns' (by simp)
    | error e =>
      have he : e = () := rfl
      subst he
      rcases nsDelta_error_cases j hns with hsd | hsd <;>
        simp [processLine, processLineNS, hpfx, hparse, hns, hsd]

/-- C8 counterexample: the chunk `data: {"choices":[]}` is a single line
whose remainder is valid JSON (an object with an empty `choices` array),
yet the two variants disagree on it: the streaming transform emits
nothing while the non-streaming transform re-emits the raw remainder
(its guard throws at `choices[0].delta`). -/
theorem c8_counterexample :
    jsonParse ("data: \x7b\"choices\":[]\x7d".data.drop 6) =
      some (Json.obj [("choices".data, Json.arr [])]) ∧
    transformChunk "data: \x7b\"choices\":[]\x7d".data = [] ∧
    transformChunkNS "data: \x7b\"choices\":[]\x7d".data =
      ["data: \x7b\"choices\":[]\x7d\n\n".data] := by
  refine ⟨rfl, rfl, rfl⟩

/-- C8 amended: the two chunk transforms agree on every chunk none of
whose lines throws during processing (`JSON.parse` failure or a
TypeError in the content guard), and they differ exactly on throwing
`data: ` lines — which include some valid-JSON lines — where the
streaming variant emits nothing and the non-streaming variant re-emits
the raw remainder as `data: <raw>\n\n`. -/
theorem c8_variant_divergence (chunk line : List Char)
    (hchunk : ∀ l ∈ splitOnChar '\n' chunk, nsLineThrows l = false)
    (hpfx : dataMarker.isPrefixOf line = true)
    (hthrow : nsLineThrows line = true) :
    transformChunk chunk = transformChunkNS chunk ∧
    processLine line = [] ∧
    processLineNS line = [dataMarker ++ line.drop 6 ++ ['\n', '\n']] := by
  refine ⟨?_, processLine_throw line hpfx hthrow⟩
  rw [transformChunk, transformChunkNS]
  cases hdone : strIncludes chunk doneSentinel with
  | true => simp
  | false =>
    simp only [Bool.false_eq_true, if_false]
    congr 1
    apply List.map_congr_left
    intro l hl
    exact processLine_agree l (hchunk l (List.mem_of_mem_filter hl))

/-- C8 witness: the amended statement at a no-throw chunk (a well-formed
content frame) and at the valid-JSON throwing line of the
counterexample. -/
theorem c8_variant_divergence_witness :
    (transformChunk "data: \x7b\"choices\":[\x7b\"delta\":\x7b\"content\":\"100\"\x7d\x7d]\x7d".data =
      transformChunkNS "data: \x7b\"choices\":[\x7b\"delta\":\x7b\"content\":\"100\"\x7d\x7d]\x7d".data ∧
    processLine "data: \x7b\"choices\":[]\x7d".data = [] ∧
    processLineNS "data: \x7b\"choices\":[]\x7d".data =
      [dataMarker ++ "data: \x7b\"choices\":[]\x7d".data.drop 6 ++ ['\n', '\n']]) :=
  c8_variant_divergence
    "data: \x7b\"choices\":[\x7b\"delta\":\x7b\"content\":\"100\"\x7d\x7d]\x7d".data
    "data: \x7b\"choices\":[]\x7d".data
    (by decide) (by decide) (by decide)

/-- The splitter always yields at least one segment. -/
theorem splitOnDelim_ne_nil (B : List Char) : splitOnDelim B ≠ [] := by
  rw [splitOnDelim.eq_def]
  split
  · simp
  · simp
  · split <;> simp

/-- C9 counterexample: on the buffer `100k-120k ;; h` — a prefix of the
well-formed `100k-120k ;; high ;; strong demand` — the parser populates
`confidenceLevel` (with `h`) although that field's trailing `;;`
delimiter, which would be a second occurrence, has not been seen: the
buffer contains exactly one complete delimiter. -/
theorem c9_counterexample :
    ("100k-120k ;; h".data.isPrefixOf
      "100k-120k ;; high ;; strong demand".data) = true ∧
    delimCount "100k-120k ;; h".data = 1 ∧
    (parsePayload "100k-120k ;; h".data).confidenceLevel = some "h".data := by
  refine ⟨by decide, by decide, by decide⟩

/-- C9 amended: an empty or whitespace-only buffer yields an
all-unresolved result; for every other buffer, the parser populates
exactly the fields whose *preceding* delimiter has been fully seen —
field 0, and field i (i ≥ 1) iff at least i complete `;;` occurrences
are in the buffer — so fields are populated in order, never out of
order. -/
theorem c9_fields_in_order (B : List Char) :
    ((trimChars B).isEmpty = true → parsePayload B = ⟨none, none, none⟩) ∧
    ((trimChars B).isEmpty = false →
      (parsePayload B).salaryRange.isSome = true ∧
      ((parsePayload B).confidenceLevel.isSome = true ↔ 1 ≤ delimCount B) ∧
      ((parsePayload B).reasoning.isSome = true ↔ 2 ≤ delimCount B)) ∧
    ((parsePayload B).reasoning.isSome = true →
      (parsePayload B).confidenceLevel.isSome = true) ∧
    ((parsePayload B).confidenceLevel.isSome = true →
      (parsePayload B).salaryRange.isSome = true) := by
  have key : ∀ (l : List (List Char)) (i : Nat),
      (l.get? i).isSome = true ↔ i < l.length := by
    intro l i
    rw [Option.isSome_iff_ne_none, ne_eq, List.get?_eq_none]
    exact not_le
  have hpos : 0 < (splitOnDelim B).length :=
    List.length_pos.mpr (splitOnDelim_ne_nil B)
  cases hws : (trimChars B).isEmpty with
  | true =>
    refine ⟨fun _ => by simp [parsePayload, hws],
      fun h => absurd h (by simp), ?_, ?_⟩
    · intro hr
      simp [parsePayload, hws] at hr
    · intro hc
      simp [parsePayload, hws] at hc
  | false =>
    refine ⟨fun h => absurd h (by simp), fun _ => ?_, ?_, ?_⟩
    · simp only [parsePayload, hws, Bool.false_eq_true, if_false, delimCount, key,
        List.length_map]
      omega
    · simp only [parsePayload, hws, Bool.false_eq_true, if_false, key,
        List.length_map]
      omega
    · simp only [parsePayload, hws, Bool.false_eq_true, if_false, key,
        List.length_map]
      omega

/-- C9 witness: the amended statement exercised at a whitespace-only
buffer (all fields unresolved) and at the mid-stream buffer
`100k-120k ;; h` (fields 0 and 1 populated, one delimiter seen). -/
theorem c9_fields_in_order_witness :
    (parsePayload "   ".data = ⟨none, none, none⟩ ∧
    ((parsePayload "100k-120k ;; h".data).salaryRange.isSome = true ∧
     ((parsePayload "100k-120k ;; h".data).confidenceLevel.isSome = true ↔
       1 ≤ delimCount "100k-120k ;; h".data) ∧
     ((parsePayload "100k-120k ;; h".data).reasoning.isSome = true ↔
       2 ≤ delimCount "100k-120k ;; h".data))) :=
  ⟨(c9_fields_in_order "   ".data).1 (by decide),
   (c9_fields_in_order "100k-120k ;; h".data).2.1 (by decide)⟩
